/-
Verification development for the setup-sshd-action repository.

The repository contains two revisions of the same engine: the current one
(src/index.js, class SSHServerManager) and a legacy one (an unnamed source
file with the same class at an earlier stage).  Both are embedded below:
the current revision in namespace SetupSSHD, the legacy revision in
namespace SetupSSHD.P0.

JavaScript strings are modelled as List Char.  String#split("\n"),
String#trim and Array#join("\n") are modelled by jsSplit, jsTrim and
nlJoin; jsTrim uses the ASCII whitespace set (space, \t, \n, \v, \f, \r),
which is the fragment of the JS whitespace class relevant here.
Effectful steps are modelled as functions returning traces of events (Ev);
outcomes of external commands are passed in as Except parameters.
-/
import Mathlib

set_option maxRecDepth 40000

namespace SetupSSHD

/-! ## JavaScript string primitives over List Char -/

/-- A Lean string literal as a JS string value (a list of characters). -/
def lit (s : String) : List Char := s.data

/-- The ASCII part of the JavaScript whitespace class used by String#trim. -/
def jsWs (c : Char) : Bool :=
  c == ' ' || c == '\t' || c == '\n' || c == '\r' || c == Char.ofNat 11 || c == Char.ofNat 12

/-- JavaScript String#split("\n"): split at every newline, keeping empty pieces. -/
def jsSplit : List Char → List (List Char)
  | [] => [[]]
  | c :: r =>
    if c = '\n' then [] :: jsSplit r
    else
      match jsSplit r with
      | [] => [[c]]
      | h :: t => (c :: h) :: t

/-- JavaScript String#trim restricted to the ASCII whitespace set. -/
def jsTrim (l : List Char) : List Char :=
  ((l.dropWhile jsWs).reverse.dropWhile jsWs).reverse

/-- JavaScript Array#join("\n"). -/
def nlJoin : List (List Char) → List Char
  | [] => []
  | [l] => l
  | l :: ls => l ++ '\n' :: nlJoin ls

/-- Node path.join for two segments: the separator follows the host platform. -/
def pathJoin (win : Bool) (a b : List Char) : List Char :=
  a ++ (if win then lit "\\" else lit "/") ++ b

/-! ## Lemmas about the string primitives -/

theorem jsSplit_ne_nil (l : List Char) : jsSplit l ≠ [] := by
  cases l with
  | nil => simp [jsSplit]
  | cons c r =>
    simp only [jsSplit]
    split
    · simp
    · split <;> simp

theorem jsSplit_no_nl {l : List Char} (h : '\n' ∉ l) : jsSplit l = [l] := by
  induction l with
  | nil => rfl
  | cons c r ih =>
    have hc : c ≠ '\n' := fun hc => h (hc ▸ List.mem_cons_self c r)
    have hr : '\n' ∉ r := fun hr => h (List.mem_cons_of_mem c hr)
    simp only [jsSplit, if_neg hc, ih hr]

theorem jsSplit_append_cons {a : List Char} (r : List Char) (h : '\n' ∉ a) :
    jsSplit (a ++ '\n' :: r) = a :: jsSplit r := by
  induction a with
  | nil => simp [jsSplit]
  | cons c b ih =>
    have hc : c ≠ '\n' := fun hc => h (hc ▸ List.mem_cons_self c b)
    have hb : '\n' ∉ b := fun hb => h (List.mem_cons_of_mem c hb)
    simp only [List.cons_append, jsSplit, if_neg hc, List.append_eq, ih hb]

theorem jsSplit_nlJoin {ls : List (List Char)} (hne : ls ≠ [])
    (h : ∀ l ∈ ls, '\n' ∉ l) : jsSplit (nlJoin ls) = ls := by
  induction ls with
  | nil => exact absurd rfl hne
  | cons l ls ih =>
    cases ls with
    | nil => exact jsSplit_no_nl (h l (List.mem_cons_self l []))
    | cons l2 ls2 =>
      have hj : nlJoin (l :: l2 :: ls2) = l ++ '\n' :: nlJoin (l2 :: ls2) := rfl
      rw [hj, jsSplit_append_cons _ (h l (List.mem_cons_self _ _)),
        ih (by simp) (fun x hx => h x (List.mem_cons_of_mem l hx))]

theorem dropWhile_ws_append (pre l : List Char) (hpre : ∀ c ∈ pre, jsWs c = true)
    (hl : ∀ c, l.head? = some c → jsWs c = false) : (pre ++ l).dropWhile jsWs = l := by
  induction pre with
  | nil =>
    cases l with
    | nil => rfl
    | cons c r =>
      have hc := hl c rfl
      simp [List.dropWhile_cons, hc]
  | cons a pre ih =>
    have ha := hpre a (List.mem_cons_self a pre)
    simp only [List.cons_append, List.dropWhile_cons, ha, if_true]
    exact ih (fun c hc => hpre c (List.mem_cons_of_mem a hc))

theorem app_ne_nil_of_right {α : Type} {a b : List α} (h : b ≠ []) : a ++ b ≠ [] :=
  fun he => h (List.append_eq_nil.mp he).2

theorem app_ne_nil_of_left {α : Type} {a b : List α} (h : a ≠ []) : a ++ b ≠ [] :=
  fun he => h (List.append_eq_nil.mp he).1

theorem jsTrim_wrap (pre body post : List Char)
    (hpre : ∀ c ∈ pre, jsWs c = true) (hpost : ∀ c ∈ post, jsWs c = true)
    (hb : body ≠ [])
    (hh : ∀ c, body.head? = some c → jsWs c = false)
    (hl : ∀ c, body.getLast? = some c → jsWs c = false) :
    jsTrim (pre ++ body ++ post) = body := by
  have h1 : (pre ++ (body ++ post)).dropWhile jsWs = body ++ post := by
    refine dropWhile_ws_append _ _ hpre ?_
    intro c hc
    cases body with
    | nil => exact absurd rfl hb
    | cons x xs =>
      refine hh c ?_
      simpa using hc
  unfold jsTrim
  rw [List.append_assoc, h1, List.reverse_append]
  have h2 : (post.reverse ++ body.reverse).dropWhile jsWs = body.reverse := by
    refine dropWhile_ws_append _ _ (fun c hc => hpost c (List.mem_reverse.mp hc)) ?_
    intro c hc
    rw [List.head?_reverse] at hc
    exact hl c hc
  rw [h2, List.reverse_reverse]

theorem nlJoin_ne_nil_of_last {ls : List (List Char)} {u : List Char}
    (h : ls.getLast? = some u) (hu : u ≠ []) : nlJoin ls ≠ [] := by
  cases ls with
  | nil => simp at h
  | cons l ls =>
    cases ls with
    | nil =>
      have : u = l := by simpa using h.symm
      simpa [nlJoin, this] using hu
    | cons l2 ls2 =>
      have hj : nlJoin (l :: l2 :: ls2) = l ++ '\n' :: nlJoin (l2 :: ls2) := rfl
      rw [hj]
      exact app_ne_nil_of_right (List.cons_ne_nil _ _)

theorem nlJoin_getLast? {ls : List (List Char)} {u : List Char}
    (h : ls.getLast? = some u) (hu : u ≠ []) : (nlJoin ls).getLast? = u.getLast? := by
  induction ls with
  | nil => simp at h
  | cons l ls ih =>
    cases ls with
    | nil =>
      have : u = l := by simpa using h.symm
      simp [nlJoin, this]
    | cons l2 ls2 =>
      have h2 : (l2 :: ls2).getLast? = some u := by
        rwa [List.getLast?_cons_cons] at h
      have hj : nlJoin (l :: l2 :: ls2) = l ++ '\n' :: nlJoin (l2 :: ls2) := rfl
      rw [hj, List.getLast?_append_of_ne_nil _ (List.cons_ne_nil _ _)]
      have hnn : nlJoin (l2 :: ls2) ≠ [] := nlJoin_ne_nil_of_last h2 hu
      have hc : ('\n' :: nlJoin (l2 :: ls2)) = ['\n'] ++ nlJoin (l2 :: ls2) := rfl
      rw [hc, List.getLast?_append_of_ne_nil _ hnn]
      exact ih h2

theorem nlJoin_head? {ls : List (List Char)} {l : List Char}
    (h : ls.head? = some l) (hne : l ≠ []) : (nlJoin ls).head? = l.head? := by
  cases ls with
  | nil => simp at h
  | cons x ls =>
    have hx : x = l := by simpa using h
    subst hx
    cases ls with
    | nil => rfl
    | cons l2 ls2 =>
      have hj : nlJoin (x :: l2 :: ls2) = x ++ '\n' :: nlJoin (l2 :: ls2) := rfl
      rw [hj]
      cases x with
      | nil => exact absurd rfl hne
      | cons c cs => rfl

theorem append_ne_append (n : Nat) {a b : List Char} (ha : n ≤ a.length)
    (hb : n ≤ b.length) (h : a.take n ≠ b.take n) (u v : List Char) :
    a ++ u ≠ b ++ v := by
  intro he
  refine h ?_
  rw [← List.take_append_of_le_length ha, ← List.take_append_of_le_length hb, he]

theorem ne_append_of_no_pre {a C : List Char} (h : ¬ a <+: C) (u : List Char) :
    C ≠ a ++ u := fun he => h (he ▸ List.prefix_append a u)

theorem not_mem_append_chars {c : Char} {a b : List Char} (ha : c ∉ a) (hb : c ∉ b) :
    c ∉ a ++ b := fun h => (List.mem_append.mp h).elim (absurd · ha) (absurd · hb)

/-! ## Events produced by effectful steps -/

/-- Observable effects of the manager: file writes (with optional mode),
external command invocations, directory creation, and log/output calls. -/
inductive Ev
  | write (path : List Char) (content : List Char) (mode : Option Nat)
  | execCmd (cmd : List Char) (args : List (List Char))
  | mkdirp (path : List Char)
  | warn (msg : List Char)
  | info (msg : List Char)
deriving DecidableEq

/-- True exactly on file-write events. -/
def isWriteEv : Ev → Bool
  | .write _ _ _ => true
  | _ => false

/-- True on an external command that copies a file (a `cp` invocation). -/
def isCpExec : Ev → Bool
  | .execCmd _ args => args.head? == some (lit "cp")
  | _ => false

/-- True on an external command that moves a file (an `mv` invocation). -/
def isMvExec : Ev → Bool
  | .execCmd _ args => args.head? == some (lit "mv")
  | _ => false

/-- True on an invocation of the key-generation utility, directly or via sudo. -/
def isKeygenExec : Ev → Bool
  | .execCmd cmd args => cmd == lit "ssh-keygen" || args.contains (lit "ssh-keygen")
  | _ => false

/-- True on a file-write whose content is the given material. -/
def isWriteOfContent (material : List Char) : Ev → Bool
  | .write _ content _ => content == material
  | _ => false

/-! ## Current revision (src/index.js): SSHServerManager -/

/-- The constructor state of SSHServerManager: platform flags and the
resolved port and user inputs, plus the home directory consulted by
getSSHDirectory. -/
structure Manager where
  isWindows : Bool
  isMacOS : Bool
  isLinux : Bool
  sshPort : List Char
  sshUser : List Char
  homeDir : List Char

/-- The SSHServerManager constructor: platform detection from
process.platform, `port` defaulting to "2222", and `ssh-user` defaulting to
the ":current" sentinel which resolves to the invoking account's name. -/
def mkManager (platform portInput userInput username homeDir : List Char) : Manager :=
  let inputUser := if userInput = [] then lit ":current" else userInput
  { isWindows := platform = lit "win32"
    isMacOS := platform = lit "darwin"
    isLinux := platform = lit "linux"
    sshPort := if portInput = [] then lit "2222" else portInput
    sshUser := if inputUser = lit ":current" then username else inputUser
    homeDir := homeDir }

/-- getSSHDirectory: the ProgramData ssh directory on Windows, ~/.ssh elsewhere. -/
def getSSHDirectory (m : Manager) : List Char :=
  if m.isWindows then lit "C:\\ProgramData\\ssh" else pathJoin m.isWindows m.homeDir (lit ".ssh")

/-- getAuthorizedKeysPath: the administrators authorized-keys file on Windows,
~/.ssh/authorized_keys elsewhere. -/
def getAuthorizedKeysPath (m : Manager) : List Char :=
  if m.isWindows then lit "C:\\ProgramData\\ssh\\administrators_authorized_keys"
  else pathJoin m.isWindows (getSSHDirectory m) (lit "authorized_keys")

/-- generateSSHDConfig: renders the sshd_config document from the manager
state and the platform tag ("windows" or "unix"), as one trimmed template. -/
def generateSSHDConfig (m : Manager) (platform : List Char) : List Char :=
  let sshDir := getSSHDirectory m
  let authorizedKeysPath :=
    if platform = lit "windows" then lit "C:\\ProgramData\\ssh\\authorized_keys"
    else pathJoin m.isWindows sshDir (lit "authorized_keys")
  let sftpServerPath :=
    if platform = lit "windows" then lit "C:\\Windows\\System32\\OpenSSH\\sftp-server.exe"
    else lit "/usr/lib/openssh/sftp-server"
  let windowsSpecificConfig :=
    if platform = lit "windows" then
      lit "\nMatch Group administrators\n    AuthorizedKeysFile __PROGRAMDATA__/ssh/administrators_authorized_keys\n"
    else []
  jsTrim (lit "\n# GitHub Actions SSH Server Configuration\nPort " ++ m.sshPort ++
    lit "\nProtocol 2\nAuthorizedKeysFile \"" ++ authorizedKeysPath ++
    lit "\"\nAuthorizedKeysFile .ssh/authorized_keys\n\n# Security settings\nPermitRootLogin no\nPasswordAuthentication no\nPubkeyAuthentication yes\nChallengeResponseAuthentication no\nUsePAM " ++
    (if platform = lit "windows" then lit "no" else lit "yes") ++
    lit "\n\n# Logging\nSyslogFacility AUTH\nLogLevel INFO\n\n# Connection settings\nClientAliveInterval 60\nClientAliveCountMax 3\nMaxAuthTries 6\nMaxSessions 10\n\n# Disable unused features\nX11Forwarding no\nAllowTcpForwarding yes\nGatewayPorts no\nPermitTunnel no\n\n# SFTP Subsystem - Required for SCP and file transfers\nSubsystem sftp \"" ++
    sftpServerPath ++ lit "\"\n\n# Allow specific user\nAllowUsers " ++ m.sshUser ++
    lit "\n\n" ++ windowsSpecificConfig ++ lit "\n")

/-- The render step as the pair (emitted I/O events, result): the source
function only builds and returns a string, so its event trace is empty. -/
def generateSSHDConfigStep (m : Manager) (platform : List Char) : List Ev × List Char :=
  ([], generateSSHDConfig m platform)

/-- generateServerKeys: `sudo ssh-keygen -A` on Unix-family platforms; on
Windows, keys are generated by the service's own first start (no event). -/
def generateServerKeysEvents (m : Manager) : List Ev :=
  if !m.isWindows then [.execCmd (lit "sudo") [lit "ssh-keygen", lit "-A"]] else []

/-- configureUnixSSH: generate host keys, then write the rendered
configuration: to ~/.ssh/sshd_config_custom on Linux, to the config path
in the ssh directory otherwise. -/
def configureUnixSSH (m : Manager) : List Ev :=
  let sshDir := getSSHDirectory m
  let configPath :=
    if m.isLinux then lit "/etc/ssh/sshd_config" else pathJoin m.isWindows sshDir (lit "sshd_config")
  let config := generateSSHDConfig m (lit "unix")
  generateServerKeysEvents m ++
    (if m.isLinux then [.write (sshDir ++ lit "/sshd_config_custom") config none]
     else [.write configPath config none])

/-- configureWindowsSSH: ensure the ssh directory, generate keys (a no-op
event-wise on Windows), and write the rendered configuration in place. -/
def configureWindowsSSH (m : Manager) (sshDirExists : Bool) : List Ev :=
  let sshDir := lit "C:\\ProgramData\\ssh"
  let configPath := pathJoin m.isWindows sshDir (lit "sshd_config")
  (if !sshDirExists then [.mkdirp sshDir] else []) ++ generateServerKeysEvents m ++
    [.write configPath (generateSSHDConfig m (lit "windows")) none]

/-- verifySSHServer's probe command: Test-NetConnection on Windows, `nc -z`
elsewhere, in both cases against localhost and the configured port. -/
def verifyCommand (m : Manager) : Ev :=
  if m.isWindows then
    .execCmd (lit "powershell") [lit "Test-NetConnection -ComputerName localhost -Port " ++ m.sshPort]
  else
    .execCmd (lit "nc") [lit "-z", lit "localhost", m.sshPort]

/-- The port value targeted by the verification probe, read back out of the
probe command (the argument of `nc -z localhost`, or the tail of the
Test-NetConnection argument after its fixed prefix). -/
def probedPort (m : Manager) : List Char :=
  match verifyCommand m with
  | .execCmd c args =>
    if c = lit "nc" then args.getD 2 []
    else (args.getD 0 []).drop (lit "Test-NetConnection -ComputerName localhost -Port ").length
  | _ => []

/-! ## Authorized-key resolution (setupAuthorizedKeys) -/

/-- The fatal message thrown when the resolved key set is empty. -/
def noKeysMsg : List Char :=
  lit "No public keys provided. Please provide authorized-keys or enable use-actor-ssh-keys and ensure you have the keys in your account."

/-- Literal keys from the `authorized-keys` input: when non-empty, split on
line breaks and keep the lines whose trim is non-empty. -/
def literalKeys (publicKeys : List Char) : List (List Char) :=
  if publicKeys = [] then []
  else (jsSplit publicKeys).filter (fun k => !(jsTrim k).isEmpty)

/-- Keys contributed by the GitHub-actor fetch: only when the flag is set
and an actor name is present; a failed fetch contributes nothing (warning). -/
def actorFetchedKeys (useActorsKeys : Bool) (githubActor : List Char)
    (fetchR : Except (List Char) (List (List Char))) : List (List Char) :=
  if useActorsKeys && !githubActor.isEmpty then
    match fetchR with
    | .ok ks => ks
    | .error _ => []
  else []

/-- fetchGitHubKeys applied to a status code and response body: on 200, the
trimmed body split on line breaks with blank lines removed; otherwise an error. -/
def fetchGitHubKeys (statusCode : Nat) (body : List Char) :
    Except (List Char) (List (List Char)) :=
  if statusCode = 200 then .ok ((jsSplit (jsTrim body)).filter (fun k => !(jsTrim k).isEmpty))
  else .error (lit "GitHub API returned error status")

/-- The full resolved key set: literal keys followed by fetched keys. -/
def resolvedKeys (publicKeys : List Char) (useActorsKeys : Bool)
    (githubActor : List Char) (fetchR : Except (List Char) (List (List Char))) :
    List (List Char) :=
  literalKeys publicKeys ++ actorFetchedKeys useActorsKeys githubActor fetchR

/-- setupAuthorizedKeys, up to its file write: fails with the fatal message
exactly when the resolved key set is empty. -/
def setupAuthorizedKeysResult (publicKeys : List Char) (useActorsKeys : Bool)
    (githubActor : List Char) (fetchR : Except (List Char) (List (List Char))) :
    Except (List Char) (List (List Char)) :=
  let allKeys := resolvedKeys publicKeys useActorsKeys githubActor fetchR
  if allKeys = [] then .error noKeysMsg else .ok allKeys

/-- The authorized-keys file write: keys joined by newlines plus a trailing
newline, written to getAuthorizedKeysPath with owner-only permissions. -/
def authorizedKeysWrite (m : Manager) (allKeys : List (List Char)) : Ev :=
  .write (getAuthorizedKeysPath m) (nlJoin allKeys ++ ['\n']) (some 0o600)

/-! ## The run sequence and the post-state dispatch -/

/-- Which forward steps of `run` were attempted, and the setFailed message
if the try/catch caught an error. -/
structure RunOutcome where
  installAttempted : Bool
  configureAttempted : Bool
  authorizeAttempted : Bool
  startAttempted : Bool
  exportAttempted : Bool
  failedWith : Option (List Char)
deriving DecidableEq

/-- The prefix attached by run's catch handler to the thrown message. -/
def setupFailPre : List Char := lit "SSH server setup failed: "

/-- The run method: install, configure, authorize, start, export in order,
stopping at the first error, which is surfaced via setFailed. -/
def run (installR configR : Except (List Char) Unit) (publicKeys : List Char)
    (useActorsKeys : Bool) (githubActor : List Char)
    (fetchR : Except (List Char) (List (List Char)))
    (startR exportR : Except (List Char) Unit) : RunOutcome :=
  match installR with
  | .error e => ⟨true, false, false, false, false, some (setupFailPre ++ e)⟩
  | .ok _ =>
    match configR with
    | .error e => ⟨true, true, false, false, false, some (setupFailPre ++ e)⟩
    | .ok _ =>
      match setupAuthorizedKeysResult publicKeys useActorsKeys githubActor fetchR with
      | .error e => ⟨true, true, true, false, false, some (setupFailPre ++ e)⟩
      | .ok _ =>
        match startR with
        | .error e => ⟨true, true, true, true, false, some (setupFailPre ++ e)⟩
        | .ok _ =>
          match exportR with
          | .error e => ⟨true, true, true, true, true, some (setupFailPre ++ e)⟩
          | .ok _ => ⟨true, true, true, true, true, none⟩

/-- The five forward steps of the state machine. -/
inductive StepTag
  | install
  | configure
  | authorize
  | start
  | exportInfo
deriving DecidableEq

/-- Top-level events of one invocation of the action entry point. -/
inductive TopEv
  | saveIsPost
  | step (s : StepTag)
  | cleanupCall
  | setFailedCall (msg : List Char)
deriving DecidableEq

/-- The ordered step trace of run, with the setFailed call at the point
where the forward sequence aborts. -/
def runEvents (installR configR : Except (List Char) Unit) (publicKeys : List Char)
    (useActorsKeys : Bool) (githubActor : List Char)
    (fetchR : Except (List Char) (List (List Char)))
    (startR exportR : Except (List Char) Unit) : List TopEv :=
  .step .install ::
    match installR with
    | .error e => [.setFailedCall (setupFailPre ++ e)]
    | .ok _ =>
      .step .configure ::
        match configR with
        | .error e => [.setFailedCall (setupFailPre ++ e)]
        | .ok _ =>
          .step .authorize ::
            match setupAuthorizedKeysResult publicKeys useActorsKeys githubActor fetchR with
            | .error e => [.setFailedCall (setupFailPre ++ e)]
            | .ok _ =>
              .step .start ::
                match startR with
                | .error e => [.setFailedCall (setupFailPre ++ e)]
                | .ok _ =>
                  .step .exportInfo ::
                    match exportR with
                    | .error e => [.setFailedCall (setupFailPre ++ e)]
                    | .ok _ => []

/-- The module's entry point: read the persisted isPost state; when unset,
save it and run setup; when set, run cleanup.  Returns the state after the
invocation and the top-level event trace. -/
def mainOnce (stored : List Char) (installR configR : Except (List Char) Unit)
    (publicKeys : List Char) (useActorsKeys : Bool) (githubActor : List Char)
    (fetchR : Except (List Char) (List (List Char)))
    (startR exportR : Except (List Char) Unit) : List Char × List TopEv :=
  if stored = [] then
    (lit "true",
      .saveIsPost ::
        runEvents installR configR publicKeys useActorsKeys githubActor fetchR startR exportR)
  else (stored, [.cleanupCall])

/-! ## Teardown (static cleanup) -/

/-- The result of the cleanup method: its event trace and the error it
raised, if any. -/
structure CleanupOutcome where
  events : List Ev
  raised : Option (List Char)

/-- cleanup: Stop-Service on Windows (outer catch downgrades to a warning);
pkill by port elsewhere (inner catch downgrades to a warning). -/
def cleanup (m : Manager) (stopServiceR pkillR : Except (List Char) Unit) :
    CleanupOutcome :=
  if m.isWindows then
    match stopServiceR with
    | .ok _ =>
      ⟨[.info (lit "Cleaning up SSH server..."),
        .execCmd (lit "powershell") [lit "Stop-Service sshd -Force"],
        .info (lit "SSH server cleanup completed")], none⟩
    | .error e =>
      ⟨[.info (lit "Cleaning up SSH server..."),
        .execCmd (lit "powershell") [lit "Stop-Service sshd -Force"],
        .warn (lit "SSH cleanup failed: " ++ e)], none⟩
  else
    match pkillR with
    | .ok _ =>
      ⟨[.info (lit "Cleaning up SSH server..."),
        .execCmd (lit "sudo") [lit "pkill", lit "-f", lit "sshd.*-p " ++ m.sshPort],
        .info (lit "SSH server cleanup completed")], none⟩
    | .error e =>
      ⟨[.info (lit "Cleaning up SSH server..."),
        .execCmd (lit "sudo") [lit "pkill", lit "-f", lit "sshd.*-p " ++ m.sshPort],
        .warn (lit "Could not kill SSH processes: " ++ e),
        .info (lit "SSH server cleanup completed")], none⟩

namespace P0

/-! ## Legacy revision of SSHServerManager (the unnamed earlier source file)

The legacy constructor differs only in the `ssh-user` default ("runner"
instead of the ":current" sentinel); the Manager structure is shared. -/

/-- The legacy constructor: `ssh-user` defaults to the literal "runner". -/
def mkManager (platform portInput userInput homeDir : List Char) : Manager :=
  { isWindows := platform = lit "win32"
    isMacOS := platform = lit "darwin"
    isLinux := platform = lit "linux"
    sshPort := if portInput = [] then lit "2222" else portInput
    sshUser := if userInput = [] then lit "runner" else userInput
    homeDir := homeDir }

/-- Legacy getAuthorizedKeysPath: the plain authorized_keys file on Windows. -/
def getAuthorizedKeysPath (m : Manager) : List Char :=
  if m.isWindows then lit "C:\\ProgramData\\ssh\\authorized_keys"
  else pathJoin m.isWindows (getSSHDirectory m) (lit "authorized_keys")

/-- Legacy generateSSHDConfig: the earlier template with an explicit
HostKey line, unquoted paths, tighter MaxAuthTries/MaxSessions, and no
SFTP subsystem or Windows match block. -/
def generateSSHDConfig (m : Manager) (platform : List Char) : List Char :=
  let sshDir := getSSHDirectory m
  let ed25519KeyPath :=
    if platform = lit "windows" then lit "C:\\ProgramData\\ssh\\ssh_host_ed25519_key"
    else pathJoin m.isWindows sshDir (lit "ssh_host_ed25519_key")
  let authorizedKeysPath :=
    if platform = lit "windows" then lit "C:\\ProgramData\\ssh\\authorized_keys"
    else pathJoin m.isWindows sshDir (lit "authorized_keys")
  jsTrim (lit "\n# GitHub Actions SSH Server Configuration\nPort " ++ m.sshPort ++
    lit "\nProtocol 2\nHostKey " ++ ed25519KeyPath ++ lit "\nAuthorizedKeysFile " ++
    authorizedKeysPath ++
    lit "\n\n# Security settings\nPermitRootLogin no\nPasswordAuthentication no\nPubkeyAuthentication yes\nChallengeResponseAuthentication no\nUsePAM " ++
    (if platform = lit "windows" then lit "no" else lit "yes") ++
    lit "\n\n# Logging\nSyslogFacility AUTH\nLogLevel INFO\n\n# Connection settings\nClientAliveInterval 60\nClientAliveCountMax 3\nMaxAuthTries 3\nMaxSessions 2\n\n# Disable unused features\nX11Forwarding no\nAllowTcpForwarding yes\nGatewayPorts no\nPermitTunnel no\n\n# Allow specific user\nAllowUsers " ++
    m.sshUser ++ lit "\n")

/-- Legacy generateServerKeys: an explicit ssh-keygen call for one ed25519
key pair, plus chmod tightening on non-Windows platforms. -/
def generateServerKeysEvents (m : Manager) (sshDir : List Char) : List Ev :=
  let edKeyPath := pathJoin m.isWindows sshDir (lit "ssh_host_ed25519_key")
  [.execCmd (lit "ssh-keygen") [lit "-t", lit "ed25519", lit "-f", edKeyPath, lit "-N", lit ""]] ++
    (if !m.isWindows then
      [.execCmd (lit "chmod") [lit "600", edKeyPath],
       .execCmd (lit "chmod") [lit "644", edKeyPath ++ lit ".pub"]]
     else [])

/-- Legacy configureUnixSSH: install the supplied server key (mode 0600) or
generate one; on Linux, back the system sshd_config up (best effort, warning
on failure) and then write the custom configuration file. -/
def configureUnixSSH (m : Manager) (serverKey : List Char)
    (cpR : Except (List Char) Unit) : List Ev :=
  let sshDir := getSSHDirectory m
  let configPath :=
    if m.isLinux then lit "/etc/ssh/sshd_config" else pathJoin m.isWindows sshDir (lit "sshd_config")
  let config := generateSSHDConfig m (lit "unix")
  (if serverKey ≠ [] then
    [.write (pathJoin m.isWindows sshDir (lit "ssh_host_ed25519_key")) serverKey (some 0o600)]
   else generateServerKeysEvents m sshDir) ++
    (if m.isLinux then
      (match cpR with
       | .ok _ => [.execCmd (lit "sudo") [lit "cp", configPath, configPath ++ lit ".backup"]]
       | .error e =>
         [.execCmd (lit "sudo") [lit "cp", configPath, configPath ++ lit ".backup"],
          .warn (lit "Could not backup original config: " ++ e)]) ++
        [.write (sshDir ++ lit "/sshd_config_custom") config none]
     else [.write configPath config none])

/-- Legacy configureWindowsSSH: install the supplied server key (mode 0600)
or generate one, then write the configuration in place. -/
def configureWindowsSSH (m : Manager) (serverKey : List Char) (sshDirExists : Bool) :
    List Ev :=
  let sshDir := lit "C:\\ProgramData\\ssh"
  let configPath := pathJoin m.isWindows sshDir (lit "sshd_config")
  (if !sshDirExists then [.mkdirp sshDir] else []) ++
    (if serverKey ≠ [] then
      [.write (pathJoin m.isWindows sshDir (lit "ssh_host_ed25519_key")) serverKey (some 0o600)]
     else generateServerKeysEvents m sshDir) ++
    [.write configPath (generateSSHDConfig m (lit "windows")) none]

/-- Legacy cleanup: Stop-Service and StartupType Disabled on Windows (outer
catch); pkill by port and, on Linux, restoration of the backed-up system
configuration elsewhere (inner catches).  Every failure becomes a warning. -/
def cleanup (m : Manager) (stopR disableR pkillR mvR : Except (List Char) Unit) :
    CleanupOutcome :=
  if m.isWindows then
    match stopR with
    | .error e =>
      ⟨[.info (lit "Cleaning up SSH server..."),
        .execCmd (lit "powershell") [lit "Stop-Service sshd -Force"],
        .warn (lit "SSH cleanup failed: " ++ e)], none⟩
    | .ok _ =>
      match disableR with
      | .error e =>
        ⟨[.info (lit "Cleaning up SSH server..."),
          .execCmd (lit "powershell") [lit "Stop-Service sshd -Force"],
          .execCmd (lit "powershell") [lit "Set-Service -Name sshd -StartupType Disabled"],
          .warn (lit "SSH cleanup failed: " ++ e)], none⟩
      | .ok _ =>
        ⟨[.info (lit "Cleaning up SSH server..."),
          .execCmd (lit "powershell") [lit "Stop-Service sshd -Force"],
          .execCmd (lit "powershell") [lit "Set-Service -Name sshd -StartupType Disabled"],
          .info (lit "SSH server cleanup completed")], none⟩
  else
    let pkillEvts :=
      match pkillR with
      | .ok _ => [Ev.execCmd (lit "sudo") [lit "pkill", lit "-f", lit "sshd.*-p " ++ m.sshPort]]
      | .error e =>
        [Ev.execCmd (lit "sudo") [lit "pkill", lit "-f", lit "sshd.*-p " ++ m.sshPort],
         Ev.warn (lit "Could not kill SSH processes: " ++ e)]
    let mvEvts :=
      if m.isLinux then
        match mvR with
        | .ok _ =>
          [Ev.execCmd (lit "sudo") [lit "mv", lit "/etc/ssh/sshd_config.backup", lit "/etc/ssh/sshd_config"]]
        | .error e =>
          [Ev.execCmd (lit "sudo") [lit "mv", lit "/etc/ssh/sshd_config.backup", lit "/etc/ssh/sshd_config"],
           Ev.warn (lit "Could not restore original SSH config: " ++ e)]
      else []
    ⟨.info (lit "Cleaning up SSH server...") ::
      (pkillEvts ++ mvEvts ++ [.info (lit "SSH server cleanup completed")]), none⟩

end P0

/-! ## Line structure of the rendered configuration (current revision) -/

/-- The authorized-keys path interpolated into the unix-tag configuration. -/
def unixAkp (m : Manager) : List Char :=
  pathJoin m.isWindows (getSSHDirectory m) (lit "authorized_keys")

/-- The lines of the unix-tag configuration before the AllowUsers line. -/
def unixInit (port akp : List Char) : List (List Char) :=
  [lit "# GitHub Actions SSH Server Configuration",
   lit "Port " ++ port,
   lit "Protocol 2",
   lit "AuthorizedKeysFile \"" ++ (akp ++ lit "\""),
   lit "AuthorizedKeysFile .ssh/authorized_keys",
   [],
   lit "# Security settings",
   lit "PermitRootLogin no",
   lit "PasswordAuthentication no",
   lit "PubkeyAuthentication yes",
   lit "ChallengeResponseAuthentication no",
   lit "UsePAM yes",
   [],
   lit "# Logging",
   lit "SyslogFacility AUTH",
   lit "LogLevel INFO",
   [],
   lit "# Connection settings",
   lit "ClientAliveInterval 60",
   lit "ClientAliveCountMax 3",
   lit "MaxAuthTries 6",
   lit "MaxSessions 10",
   [],
   lit "# Disable unused features",
   lit "X11Forwarding no",
   lit "AllowTcpForwarding yes",
   lit "GatewayPorts no",
   lit "PermitTunnel no",
   [],
   lit "# SFTP Subsystem - Required for SCP and file transfers",
   lit "Subsystem sftp \"/usr/lib/openssh/sftp-server\"",
   [],
   lit "# Allow specific user"]

/-- All lines of the unix-tag configuration. -/
def unixMid (port akp user : List Char) : List (List Char) :=
  unixInit port akp ++ [lit "AllowUsers " ++ user]

/-- The lines of the windows-tag configuration before the AllowUsers line. -/
def winInit (port : List Char) : List (List Char) :=
  [lit "# GitHub Actions SSH Server Configuration",
   lit "Port " ++ port,
   lit "Protocol 2",
   lit "AuthorizedKeysFile \"C:\\ProgramData\\ssh\\authorized_keys\"",
   lit "AuthorizedKeysFile .ssh/authorized_keys",
   [],
   lit "# Security settings",
   lit "PermitRootLogin no",
   lit "PasswordAuthentication no",
   lit "PubkeyAuthentication yes",
   lit "ChallengeResponseAuthentication no",
   lit "UsePAM no",
   [],
   lit "# Logging",
   lit "SyslogFacility AUTH",
   lit "LogLevel INFO",
   [],
   lit "# Connection settings",
   lit "ClientAliveInterval 60",
   lit "ClientAliveCountMax 3",
   lit "MaxAuthTries 6",
   lit "MaxSessions 10",
   [],
   lit "# Disable unused features",
   lit "X11Forwarding no",
   lit "AllowTcpForwarding yes",
   lit "GatewayPorts no",
   lit "PermitTunnel no",
   [],
   lit "# SFTP Subsystem - Required for SCP and file transfers",
   lit "Subsystem sftp \"C:\\Windows\\System32\\OpenSSH\\sftp-server.exe\"",
   [],
   lit "# Allow specific user"]

/-- The lines of the windows-tag configuration after the AllowUsers line:
a blank separator and the administrators match block. -/
def winTail : List (List Char) :=
  [[], [],
   lit "Match Group administrators",
   lit "    AuthorizedKeysFile __PROGRAMDATA__/ssh/administrators_authorized_keys"]

/-- All lines of the windows-tag configuration. -/
def winMid (port user : List Char) : List (List Char) :=
  winInit port ++ [lit "AllowUsers " ++ user] ++ winTail

theorem no_nl_sshDir (m : Manager) (hd : '\n' ∉ m.homeDir) : '\n' ∉ getSSHDirectory m := by
  unfold getSSHDirectory pathJoin
  by_cases hw : m.isWindows
  · rw [if_pos hw]; decide
  · rw [if_neg hw, if_neg hw]
    exact not_mem_append_chars (not_mem_append_chars hd (by decide)) (by decide)

theorem no_nl_unixAkp (m : Manager) (hd : '\n' ∉ m.homeDir) : '\n' ∉ unixAkp m := by
  unfold unixAkp pathJoin
  by_cases hw : m.isWindows
  · rw [if_pos hw]
    exact not_mem_append_chars (not_mem_append_chars (no_nl_sshDir m hd) (by decide)) (by decide)
  · rw [if_neg hw]
    exact not_mem_append_chars (not_mem_append_chars (no_nl_sshDir m hd) (by decide)) (by decide)

theorem generateSSHDConfig_unix_raw (m : Manager) :
    generateSSHDConfig m (lit "unix") =
      jsTrim (['\n'] ++ nlJoin (unixMid m.sshPort (unixAkp m) m.sshUser) ++ lit "\n\n\n") := by
  have hneq : ¬ (lit "unix" = lit "windows") := by decide
  simp only [generateSSHDConfig]
  rw [if_neg hneq, if_neg hneq, if_neg hneq, if_neg hneq]
  congr 1
  simp only [unixMid, unixInit, unixAkp, nlJoin, List.append_assoc, List.cons_append,
    List.nil_append]
  rfl

theorem generateSSHDConfig_win_raw (m : Manager) :
    generateSSHDConfig m (lit "windows") =
      jsTrim (['\n'] ++ nlJoin (winMid m.sshPort m.sshUser) ++ lit "\n\n") := by
  simp only [generateSSHDConfig]
  simp only [if_true]
  congr 1
  simp only [winMid, winInit, winTail, nlJoin, List.append_assoc, List.cons_append,
    List.nil_append]
  rfl

theorem unixMid_no_nl {port akp user : List Char} (hp : '\n' ∉ port) (ha : '\n' ∉ akp)
    (hu : '\n' ∉ user) : ∀ l ∈ unixMid port akp user, '\n' ∉ l := by
  intro l hl
  simp only [unixMid, unixInit, List.mem_append, List.mem_cons, List.not_mem_nil,
    or_false] at hl
  rcases hl with (rfl|rfl|rfl|rfl|rfl|rfl|rfl|rfl|rfl|rfl|rfl|rfl|rfl|rfl|rfl|rfl|rfl|
    rfl|rfl|rfl|rfl|rfl|rfl|rfl|rfl|rfl|rfl|rfl|rfl|rfl|rfl|rfl|rfl)|rfl
  all_goals first
  | decide
  | exact not_mem_append_chars (by decide) hp
  | exact not_mem_append_chars (by decide) hu
  | exact not_mem_append_chars (by decide) (not_mem_append_chars ha (by decide))

theorem winMid_no_nl {port user : List Char} (hp : '\n' ∉ port) (hu : '\n' ∉ user) :
    ∀ l ∈ winMid port user, '\n' ∉ l := by
  intro l hl
  simp only [winMid, winInit, winTail, List.mem_append, List.mem_cons, List.not_mem_nil,
    or_false] at hl
  rcases hl with ((rfl|rfl|rfl|rfl|rfl|rfl|rfl|rfl|rfl|rfl|rfl|rfl|rfl|rfl|rfl|rfl|rfl|
    rfl|rfl|rfl|rfl|rfl|rfl|rfl|rfl|rfl|rfl|rfl|rfl|rfl|rfl|rfl|rfl)|rfl)|(rfl|rfl|rfl|rfl)
  all_goals first
  | decide
  | exact not_mem_append_chars (by decide) hp
  | exact not_mem_append_chars (by decide) hu

theorem render_unix_lines (m : Manager) (hp : '\n' ∉ m.sshPort) (hu : '\n' ∉ m.sshUser)
    (hd : '\n' ∉ m.homeDir) (hne : m.sshUser ≠ [])
    (hlast : ∀ c, m.sshUser.getLast? = some c → jsWs c = false) :
    jsSplit (generateSSHDConfig m (lit "unix")) = unixMid m.sshPort (unixAkp m) m.sshUser := by
  have hgl : (unixMid m.sshPort (unixAkp m) m.sshUser).getLast? =
      some (lit "AllowUsers " ++ m.sshUser) := List.getLast?_concat _
  have hauNe : lit "AllowUsers " ++ m.sshUser ≠ [] := app_ne_nil_of_left (by decide)
  have hmidNe : unixMid m.sshPort (unixAkp m) m.sshUser ≠ [] := by
    unfold unixMid
    exact app_ne_nil_of_right (List.cons_ne_nil _ _)
  have hhd : (unixMid m.sshPort (unixAkp m) m.sshUser).head? =
      some (lit "# GitHub Actions SSH Server Configuration") := rfl
  rw [generateSSHDConfig_unix_raw, jsTrim_wrap]
  · exact jsSplit_nlJoin hmidNe (unixMid_no_nl hp (no_nl_unixAkp m hd) hu)
  · decide
  · decide
  · exact nlJoin_ne_nil_of_last hgl hauNe
  · intro c hc
    rw [nlJoin_head? hhd (by decide)] at hc
    cases hc
    decide
  · intro c hc
    rw [nlJoin_getLast? hgl hauNe, List.getLast?_append_of_ne_nil _ hne] at hc
    exact hlast c hc

theorem render_win_lines (m : Manager) (hp : '\n' ∉ m.sshPort) (hu : '\n' ∉ m.sshUser) :
    jsSplit (generateSSHDConfig m (lit "windows")) = winMid m.sshPort m.sshUser := by
  have hgl : (winMid m.sshPort m.sshUser).getLast? =
      some (lit "    AuthorizedKeysFile __PROGRAMDATA__/ssh/administrators_authorized_keys") := rfl
  have hhd : (winMid m.sshPort m.sshUser).head? =
      some (lit "# GitHub Actions SSH Server Configuration") := rfl
  have hmidNe : winMid m.sshPort m.sshUser ≠ [] := by
    unfold winMid winTail
    exact app_ne_nil_of_right (List.cons_ne_nil _ _)
  rw [generateSSHDConfig_win_raw, jsTrim_wrap]
  · exact jsSplit_nlJoin hmidNe (winMid_no_nl hp hu)
  · decide
  · decide
  · exact nlJoin_ne_nil_of_last hgl (by decide)
  · intro c hc
    rw [nlJoin_head? hhd (by decide)] at hc
    cases hc
    decide
  · intro c hc
    rw [nlJoin_getLast? hgl (by decide)] at hc
    cases hc
    decide

theorem unixInit_ne_allow (port akp user : List Char) :
    ∀ l ∈ unixInit port akp, l ≠ lit "AllowUsers " ++ user := by
  intro l hl
  simp only [unixInit, List.mem_cons, List.not_mem_nil, or_false] at hl
  rcases hl with rfl|rfl|rfl|rfl|rfl|rfl|rfl|rfl|rfl|rfl|rfl|rfl|rfl|rfl|rfl|rfl|rfl|
    rfl|rfl|rfl|rfl|rfl|rfl|rfl|rfl|rfl|rfl|rfl|rfl|rfl|rfl|rfl|rfl
  all_goals first
  | exact ne_append_of_no_pre (by decide) _
  | exact append_ne_append 1 (by decide) (by decide) (by decide) _ _
  | exact append_ne_append 2 (by decide) (by decide) (by decide) _ _

theorem winInit_ne_allow (port user : List Char) :
    ∀ l ∈ winInit port, l ≠ lit "AllowUsers " ++ user := by
  intro l hl
  simp only [winInit, List.mem_cons, List.not_mem_nil, or_false] at hl
  rcases hl with rfl|rfl|rfl|rfl|rfl|rfl|rfl|rfl|rfl|rfl|rfl|rfl|rfl|rfl|rfl|rfl|rfl|
    rfl|rfl|rfl|rfl|rfl|rfl|rfl|rfl|rfl|rfl|rfl|rfl|rfl|rfl|rfl|rfl
  all_goals first
  | exact ne_append_of_no_pre (by decide) _
  | exact append_ne_append 1 (by decide) (by decide) (by decide) _ _

theorem winTail_ne_allow (user : List Char) :
    ∀ l ∈ winTail, l ≠ lit "AllowUsers " ++ user := by
  intro l hl
  simp only [winTail, List.mem_cons, List.not_mem_nil, or_false] at hl
  rcases hl with rfl|rfl|rfl|rfl
  all_goals exact ne_append_of_no_pre (by decide) _

theorem unixMid_port_unique (port akp user : List Char) :
    ∀ l ∈ unixMid port akp user, l.take 5 = lit "Port " → l = lit "Port " ++ port := by
  intro l hl h
  simp only [unixMid, unixInit, List.mem_append, List.mem_cons, List.not_mem_nil,
    or_false] at hl
  rcases hl with (rfl|rfl|rfl|rfl|rfl|rfl|rfl|rfl|rfl|rfl|rfl|rfl|rfl|rfl|rfl|rfl|rfl|
    rfl|rfl|rfl|rfl|rfl|rfl|rfl|rfl|rfl|rfl|rfl|rfl|rfl|rfl|rfl|rfl)|rfl
  all_goals first
  | rfl
  | exact absurd h (by decide)
  | (rw [List.take_append_of_le_length (by decide)] at h; exact absurd h (by decide))

theorem winMid_port_unique (port user : List Char) :
    ∀ l ∈ winMid port user, l.take 5 = lit "Port " → l = lit "Port " ++ port := by
  intro l hl h
  simp only [winMid, winInit, winTail, List.mem_append, List.mem_cons, List.not_mem_nil,
    or_false] at hl
  rcases hl with ((rfl|rfl|rfl|rfl|rfl|rfl|rfl|rfl|rfl|rfl|rfl|rfl|rfl|rfl|rfl|rfl|rfl|
    rfl|rfl|rfl|rfl|rfl|rfl|rfl|rfl|rfl|rfl|rfl|rfl|rfl|rfl|rfl|rfl)|rfl)|(rfl|rfl|rfl|rfl)
  all_goals first
  | rfl
  | exact absurd h (by decide)
  | (rw [List.take_append_of_le_length (by decide)] at h; exact absurd h (by decide))

theorem lastNotWs_of_eq {u : List Char} {c0 : Char} (h : u.getLast? = some c0)
    (hws : jsWs c0 = false) : ∀ c, u.getLast? = some c → jsWs c = false := by
  intro c hc
  rw [h] at hc
  cases hc
  exact hws

/-! ## Example managers for concrete evaluation -/

/-- A manager as constructed on a standard Linux runner. -/
def exLinux : Manager :=
  mkManager (lit "linux") [] [] (lit "runner") (lit "/home/runner")

/-- A manager as constructed on a standard Windows runner. -/
def exWin : Manager :=
  mkManager (lit "win32") [] [] (lit "runneradmin") (lit "C:\\Users\\runneradmin")

/-- A manager whose ssh-user input smuggles a second configuration line. -/
def injManager : Manager :=
  mkManager (lit "linux") [] (lit "a\nAllowUsers a") (lit "runner") (lit "/home/runner")

/-- The security invariant claimed for every rendered configuration: it
contains the PasswordAuthentication no line and exactly one line consisting
of AllowUsers followed by the configured user. -/
def securityInvariantHolds (user config : List Char) : Prop :=
  lit "PasswordAuthentication no" ∈ jsSplit config ∧
    (jsSplit config).count (lit "AllowUsers " ++ user) = 1

instance (user config : List Char) : Decidable (securityInvariantHolds user config) :=
  inferInstanceAs (Decidable (_ ∧ _))

/-! ## Claims -/

/-- C1 (counterexample): the claim fails as stated, because an option value
can duplicate the AllowUsers directive.  With the ssh-user input
"a\nAllowUsers a" the rendered unix configuration has no line equal to
"AllowUsers " followed by the configured user (so the exactly-one condition
fails), and it has two lines starting with "AllowUsers ". -/
theorem c1_counterexample :
    ¬ securityInvariantHolds injManager.sshUser (generateSSHDConfig injManager (lit "unix")) ∧
    ((jsSplit (generateSSHDConfig injManager (lit "unix"))).filter
      (fun l => l.take 11 == lit "AllowUsers ")).length = 2 := by
  exact ⟨by decide, by decide⟩

/-- C1 (amended): for every platform tag ("unix" or "windows") and every
option set whose port and user values contain no line break, with a
nonempty user not ending in trim whitespace and a newline-free home
directory, the rendered configuration contains the line
PasswordAuthentication no and exactly one AllowUsers line naming the
configured user. -/
theorem c1_security_invariant (m : Manager) (tag : List Char)
    (htag : tag = lit "unix" ∨ tag = lit "windows")
    (hp : '\n' ∉ m.sshPort) (hu : '\n' ∉ m.sshUser) (hd : '\n' ∉ m.homeDir)
    (hne : m.sshUser ≠ [])
    (hlast : ∀ c, m.sshUser.getLast? = some c → jsWs c = false) :
    securityInvariantHolds m.sshUser (generateSSHDConfig m tag) := by
  unfold securityInvariantHolds
  rcases htag with rfl|rfl
  · rw [render_unix_lines m hp hu hd hne hlast]
    constructor
    · simp [unixMid, unixInit]
    · rw [unixMid, List.count_append,
        List.count_eq_zero.mpr
          (fun hm => unixInit_ne_allow m.sshPort (unixAkp m) m.sshUser _ hm rfl)]
      simp
  · rw [render_win_lines m hp hu]
    constructor
    · simp [winMid, winInit]
    · rw [winMid, List.count_append, List.count_append,
        List.count_eq_zero.mpr
          (fun hm => winInit_ne_allow m.sshPort m.sshUser _ hm rfl),
        List.count_eq_zero.mpr
          (fun hm => winTail_ne_allow m.sshUser _ hm rfl)]
      simp

/-- C1 (witness): the amended invariant evaluated on a standard Linux manager. -/
theorem c1_witness :
    securityInvariantHolds exLinux.sshUser (generateSSHDConfig exLinux (lit "unix")) :=
  c1_security_invariant exLinux (lit "unix") (Or.inl rfl) (by decide) (by decide)
    (by decide) (by decide)
    (lastNotWs_of_eq (show exLinux.sshUser.getLast? = some 'r' from rfl) (by decide))

/-- C2: whenever the literal key input resolves to nothing and the remote
fetch contributes nothing, key resolution fails with the fatal
no-authorized-keys error; with install and configure succeeding, the run is
marked failed with exactly that message and the daemon start step is never
attempted. -/
theorem c2_no_keys_fatal (publicKeys githubActor : List Char) (useActorsKeys : Bool)
    (fetchR : Except (List Char) (List (List Char)))
    (startR exportR : Except (List Char) Unit)
    (hlit : literalKeys publicKeys = [])
    (hfetch : actorFetchedKeys useActorsKeys githubActor fetchR = []) :
    setupAuthorizedKeysResult publicKeys useActorsKeys githubActor fetchR = .error noKeysMsg ∧
    run (.ok ()) (.ok ()) publicKeys useActorsKeys githubActor fetchR startR exportR =
      ⟨true, true, true, false, false, some (setupFailPre ++ noKeysMsg)⟩ ∧
    (run (.ok ()) (.ok ()) publicKeys useActorsKeys githubActor fetchR
      startR exportR).startAttempted = false := by
  have hres : resolvedKeys publicKeys useActorsKeys githubActor fetchR = [] := by
    simp [resolvedKeys, hlit, hfetch]
  have hsr : setupAuthorizedKeysResult publicKeys useActorsKeys githubActor fetchR =
      .error noKeysMsg := by
    simp [setupAuthorizedKeysResult, hres]
  refine ⟨hsr, ?_, ?_⟩ <;> simp [run, hsr]

/-- C2 (witness): empty literal input with the remote fetch disabled. -/
theorem c2_witness :
    setupAuthorizedKeysResult [] false [] (.ok []) = .error noKeysMsg ∧
    (run (.ok ()) (.ok ()) [] false [] (.ok []) (.ok ()) (.ok ())).startAttempted = false := by
  have h := c2_no_keys_fatal [] [] false (.ok []) (.ok ()) (.ok ()) rfl rfl
  exact ⟨h.1, h.2.2⟩

theorem cleanup_not_in_runEvents (installR configR : Except (List Char) Unit)
    (pk : List Char) (ua : Bool) (ga : List Char)
    (f : Except (List Char) (List (List Char))) (sR eR : Except (List Char) Unit) :
    TopEv.cleanupCall ∉ runEvents installR configR pk ua ga f sR eR := by
  unfold runEvents
  rcases installR with e|u
  · simp
  · rcases configR with e|u
    · simp
    · rcases hk : setupAuthorizedKeysResult pk ua ga f with e|ks
      · simp [hk]
      · rcases sR with e|u
        · simp [hk]
        · rcases eR with e|u
          · simp [hk]
          · simp [hk]

/-- C3: the isPost flag is saved before any forward setup step runs,
whatever the setup outcome; the invocation that starts with the flag unset
never reaches teardown, and the following invocation, reading the state the
first one saved, runs exactly the teardown call; teardown is selected
exactly when a previous invocation recorded itself. -/
theorem c3_ispost_ordering (stored : List Char) (installR configR : Except (List Char) Unit)
    (pk : List Char) (ua : Bool) (ga : List Char)
    (f : Except (List Char) (List (List Char))) (sR eR : Except (List Char) Unit) :
    (mainOnce [] installR configR pk ua ga f sR eR).2.head? = some .saveIsPost ∧
    (∀ e ∈ (mainOnce [] installR configR pk ua ga f sR eR).2, e ≠ .cleanupCall) ∧
    (mainOnce (mainOnce [] installR configR pk ua ga f sR eR).1
      installR configR pk ua ga f sR eR).2 = [.cleanupCall] ∧
    ((mainOnce stored installR configR pk ua ga f sR eR).2.count .cleanupCall = 1 ↔
      stored ≠ []) := by
  have h1 : mainOnce [] installR configR pk ua ga f sR eR =
      (lit "true", .saveIsPost :: runEvents installR configR pk ua ga f sR eR) := by
    simp [mainOnce]
  have h2 : (mainOnce [] installR configR pk ua ga f sR eR).1 = lit "true" := by
    rw [h1]
  refine ⟨by rw [h1]; rfl, ?_, ?_, ?_⟩
  · rw [h1]
    intro e he
    rcases List.mem_cons.mp he with rfl|he2
    · simp
    · intro hc
      exact cleanup_not_in_runEvents installR configR pk ua ga f sR eR (hc ▸ he2)
  · rw [h2]
    unfold mainOnce
    rw [if_neg (by decide)]
  · by_cases hs : stored = []
    · subst hs
      rw [h1]
      have hz : (TopEv.saveIsPost :: runEvents installR configR pk ua ga f sR eR).count
          .cleanupCall = 0 := by
        refine List.count_eq_zero.mpr ?_
        intro hmem
        rcases List.mem_cons.mp hmem with he|he
        · cases he
        · exact cleanup_not_in_runEvents installR configR pk ua ga f sR eR he
      simp [hz]
    · unfold mainOnce
      rw [if_neg hs]
      simp [hs]

/-- C3 (witness): both invocations evaluated on concrete parameters, with a
failing install to cover the Failed path. -/
theorem c3_witness :
    (mainOnce [] (.error (lit "boom")) (.ok ()) [] false [] (.ok []) (.ok ()) (.ok ())).2.head? =
      some .saveIsPost ∧
    TopEv.cleanupCall ∉
      (mainOnce [] (.error (lit "boom")) (.ok ()) [] false [] (.ok []) (.ok ()) (.ok ())).2 ∧
    (mainOnce
      (mainOnce [] (.error (lit "boom")) (.ok ()) [] false [] (.ok []) (.ok ()) (.ok ())).1
      (.error (lit "boom")) (.ok ()) [] false [] (.ok []) (.ok ()) (.ok ())).2 =
      [.cleanupCall] := by
  have h := c3_ispost_ordering [] (.error (lit "boom")) (.ok ()) [] false []
    (.ok []) (.ok ()) (.ok ())
  exact ⟨h.1, fun hm => h.2.1 _ hm rfl, h.2.2.1⟩

/-- C4 (counterexample): in the current revision, the Linux configure step
performs no copy at all (no cp invocation) although it does write a
configuration file, and the teardown performs no restore (no mv
invocation) — so no backup-then-restore happens as the claim states. -/
theorem c4_counterexample :
    (configureUnixSSH exLinux).filter isCpExec = [] ∧
    (configureUnixSSH exLinux).filter isWriteEv ≠ [] ∧
    (cleanup exLinux (.ok ()) (.ok ())).events.filter isMvExec = [] := by
  exact ⟨by decide, by decide, by decide⟩

/-- C4 (amended): the backup-then-restore behaviour belongs to the legacy
revision: there, on Linux, the configure step invokes the copy of
/etc/ssh/sshd_config to /etc/ssh/sshd_config.backup before the write of the
custom configuration file, and its teardown invokes the restoring move.  In
the current revision the configure step never writes the default path at
all, so the system-default file is still unchanged by a setup cycle. -/
theorem c4_backup_restore (m : Manager) (serverKey : List Char)
    (cpR stopR disableR pkillR mvR : Except (List Char) Unit)
    (hlin : m.isLinux = true) (hwin : m.isWindows = false) :
    (∃ pre mid2,
      P0.configureUnixSSH m serverKey cpR =
        pre ++ Ev.execCmd (lit "sudo")
            [lit "cp", lit "/etc/ssh/sshd_config", lit "/etc/ssh/sshd_config" ++ lit ".backup"] ::
          (mid2 ++ [Ev.write (getSSHDirectory m ++ lit "/sshd_config_custom")
            (P0.generateSSHDConfig m (lit "unix")) none])) ∧
    Ev.execCmd (lit "sudo") [lit "mv", lit "/etc/ssh/sshd_config.backup", lit "/etc/ssh/sshd_config"]
      ∈ (P0.cleanup m stopR disableR pkillR mvR).events ∧
    (∀ e ∈ configureUnixSSH m, ∀ content mode,
      e ≠ Ev.write (lit "/etc/ssh/sshd_config") content mode) := by
  refine ⟨?_, ?_, ?_⟩
  · by_cases hk : serverKey = []
    · cases cpR with
      | ok u =>
        exact ⟨P0.generateServerKeysEvents m (getSSHDirectory m), [],
          by simp [P0.configureUnixSSH, hlin, hk]⟩
      | error e =>
        exact ⟨P0.generateServerKeysEvents m (getSSHDirectory m),
          [.warn (lit "Could not backup original config: " ++ e)],
          by simp [P0.configureUnixSSH, hlin, hk]⟩
    · cases cpR with
      | ok u =>
        exact ⟨[.write (pathJoin m.isWindows (getSSHDirectory m) (lit "ssh_host_ed25519_key"))
            serverKey (some 0o600)], [],
          by simp [P0.configureUnixSSH, hlin, hk]⟩
      | error e =>
        exact ⟨[.write (pathJoin m.isWindows (getSSHDirectory m) (lit "ssh_host_ed25519_key"))
            serverKey (some 0o600)],
          [.warn (lit "Could not backup original config: " ++ e)],
          by simp [P0.configureUnixSSH, hlin, hk]⟩
  · cases pkillR <;> cases mvR <;> simp [P0.cleanup, hwin, hlin]
  · intro e he content mode
    simp only [configureUnixSSH, generateServerKeysEvents, hlin, hwin,
      Bool.not_false, if_true, if_pos, List.mem_append, List.mem_cons,
      List.not_mem_nil, or_false] at he
    rcases he with rfl|rfl
    · intro heq
      cases heq
    · intro heq
      injection heq with hpath _ _
      have hlast := congrArg List.getLast? hpath
      rw [List.getLast?_append_of_ne_nil _ (by decide)] at hlast
      exact absurd hlast (by decide)

/-- C4 (witness): the legacy Linux configure and teardown evaluated on a
standard Linux manager with no supplied key and a successful copy. -/
theorem c4_witness :
    (∃ pre mid2,
      P0.configureUnixSSH exLinux [] (.ok ()) =
        pre ++ Ev.execCmd (lit "sudo")
            [lit "cp", lit "/etc/ssh/sshd_config", lit "/etc/ssh/sshd_config" ++ lit ".backup"] ::
          (mid2 ++ [Ev.write (getSSHDirectory exLinux ++ lit "/sshd_config_custom")
            (P0.generateSSHDConfig exLinux (lit "unix")) none])) ∧
    Ev.execCmd (lit "sudo") [lit "mv", lit "/etc/ssh/sshd_config.backup", lit "/etc/ssh/sshd_config"]
      ∈ (P0.cleanup exLinux (.ok ()) (.ok ()) (.ok ()) (.ok ())).events := by
  have h := c4_backup_restore exLinux [] (.ok ()) (.ok ()) (.ok ()) (.ok ()) (.ok ())
    (by decide) (by decide)
  exact ⟨h.1, h.2.1⟩

/-- Supplied server-key material used in concrete counterexamples. -/
def suppliedKey : List Char := lit "FAKE-ED25519-PRIVATE-KEY"

/-- C5 (counterexample): the current revision ignores the server-key input:
its configure step never reads it, writes no file containing the supplied
material, and invokes key generation (sudo ssh-keygen -A) unconditionally. -/
theorem c5_counterexample :
    (configureUnixSSH exLinux).filter (isWriteOfContent suppliedKey) = [] ∧
    Ev.execCmd (lit "sudo") [lit "ssh-keygen", lit "-A"] ∈ configureUnixSSH exLinux ∧
    (configureWindowsSSH exWin true).filter (isWriteOfContent suppliedKey) = [] := by
  exact ⟨by decide, by decide, by decide⟩

/-- C5 (amended): installing supplied server-key material is legacy-revision
behaviour: there, a non-empty server-key input is written first, as the
ed25519 host key under the ssh directory with mode 0600, and no
key-generation utility runs; the Windows variant writes the same file. -/
theorem c5_supplied_key (m : Manager) (serverKey : List Char)
    (cpR : Except (List Char) Unit) (sshDirExists : Bool) (hkey : serverKey ≠ []) :
    (P0.configureUnixSSH m serverKey cpR).head? =
      some (Ev.write (pathJoin m.isWindows (getSSHDirectory m) (lit "ssh_host_ed25519_key"))
        serverKey (some 0o600)) ∧
    (∀ e ∈ P0.configureUnixSSH m serverKey cpR, isKeygenExec e = false) ∧
    Ev.write (pathJoin m.isWindows (lit "C:\\ProgramData\\ssh") (lit "ssh_host_ed25519_key"))
        serverKey (some 0o600) ∈ P0.configureWindowsSSH m serverKey sshDirExists := by
  refine ⟨?_, ?_, ?_⟩
  · simp [P0.configureUnixSSH, hkey]
  · intro e he
    by_cases hl : m.isLinux = true
    · cases cpR with
      | ok u =>
        simp [P0.configureUnixSSH, hkey, hl] at he
        rcases he with rfl|rfl|rfl <;> rfl
      | error e2 =>
        simp [P0.configureUnixSSH, hkey, hl] at he
        rcases he with rfl|rfl|rfl|rfl <;> rfl
    · have hl2 : m.isLinux = false := by simpa using hl
      simp [P0.configureUnixSSH, hkey, hl2] at he
      rcases he with rfl|rfl <;> rfl
  · simp [P0.configureWindowsSSH, hkey]

/-- C5 (witness): the legacy configure step with concrete supplied material. -/
theorem c5_witness :
    (P0.configureUnixSSH exLinux suppliedKey (.ok ())).head? =
      some (Ev.write (pathJoin exLinux.isWindows (getSSHDirectory exLinux)
        (lit "ssh_host_ed25519_key")) suppliedKey (some 0o600)) ∧
    Ev.write (pathJoin exLinux.isWindows (lit "C:\\ProgramData\\ssh")
        (lit "ssh_host_ed25519_key")) suppliedKey (some 0o600)
      ∈ P0.configureWindowsSSH exLinux suppliedKey true := by
  have h := c5_supplied_key exLinux suppliedKey (.ok ()) true (by decide)
  exact ⟨h.1, h.2.2⟩

/-- C6: the configuration synthesizer is pure and deterministic: the render
step emits no events, identical inputs give identical (byte-for-byte equal)
documents, and the configure step consumes the rendered document as the
content of its file write. -/
theorem c6_render_pure (m : Manager) (platform : List Char) :
    (generateSSHDConfigStep m platform).1 = [] ∧
    (∀ m2 p2, m = m2 → platform = p2 →
      generateSSHDConfig m platform = generateSSHDConfig m2 p2) ∧
    (m.isLinux = true →
      Ev.write (getSSHDirectory m ++ lit "/sshd_config_custom")
        (generateSSHDConfig m (lit "unix")) none ∈ configureUnixSSH m) := by
  refine ⟨rfl, ?_, ?_⟩
  · intro m2 p2 h1 h2
    rw [h1, h2]
  · intro hl
    simp [configureUnixSSH, hl]

/-- C6 (witness): the render step on a concrete manager. -/
theorem c6_witness :
    (generateSSHDConfigStep exLinux (lit "unix")).1 = [] ∧
    generateSSHDConfig exLinux (lit "unix") = generateSSHDConfig exLinux (lit "unix") ∧
    Ev.write (getSSHDirectory exLinux ++ lit "/sshd_config_custom")
      (generateSSHDConfig exLinux (lit "unix")) none ∈ configureUnixSSH exLinux := by
  have h := c6_render_pure exLinux (lit "unix")
  exact ⟨h.1, h.2.1 exLinux (lit "unix") rfl rfl, h.2.2 (by decide)⟩

/-- C7: the configured port value flows unchanged both into the rendered
configuration — whose unique "Port " line is exactly "Port " followed by
the configured value, on either platform tag — and into the verification
probe, which targets exactly that port. -/
theorem c7_port_flow (m : Manager) (tag : List Char)
    (htag : tag = lit "unix" ∨ tag = lit "windows")
    (hp : '\n' ∉ m.sshPort) (hu : '\n' ∉ m.sshUser) (hd : '\n' ∉ m.homeDir)
    (hne : m.sshUser ≠ [])
    (hlast : ∀ c, m.sshUser.getLast? = some c → jsWs c = false) :
    lit "Port " ++ m.sshPort ∈ jsSplit (generateSSHDConfig m tag) ∧
    (∀ l ∈ jsSplit (generateSSHDConfig m tag),
      l.take 5 = lit "Port " → l = lit "Port " ++ m.sshPort) ∧
    probedPort m = m.sshPort := by
  have hprobe : probedPort m = m.sshPort := by
    unfold probedPort verifyCommand
    by_cases hw : m.isWindows
    · rw [if_pos hw]
      simp only []
      rw [if_neg (by decide)]
      exact List.drop_left _ m.sshPort
    · rw [if_neg hw]
      rfl
  rcases htag with rfl|rfl
  · rw [render_unix_lines m hp hu hd hne hlast]
    exact ⟨by simp [unixMid, unixInit], unixMid_port_unique _ _ _, hprobe⟩
  · rw [render_win_lines m hp hu]
    exact ⟨by simp [winMid, winInit], winMid_port_unique _ _, hprobe⟩

/-- C7 (witness): the port flow evaluated on a standard Linux manager. -/
theorem c7_witness :
    lit "Port " ++ exLinux.sshPort ∈ jsSplit (generateSSHDConfig exLinux (lit "unix")) ∧
    probedPort exLinux = exLinux.sshPort := by
  have h := c7_port_flow exLinux (lit "unix") (Or.inl rfl) (by decide) (by decide)
    (by decide) (by decide)
    (lastNotWs_of_eq (show exLinux.sshUser.getLast? = some 'r' from rfl) (by decide))
  exact ⟨h.1, h.2.2⟩

/-- C8: teardown never raises, in either revision, whatever the outcomes of
the external commands; each failing step (service stop, process kill,
config restore) surfaces only as a warning in the teardown's event trace. -/
theorem c8_cleanup_never_raises (m : Manager)
    (stopR pkillR stopR2 disableR pkillR2 mvR : Except (List Char) Unit) :
    (cleanup m stopR pkillR).raised = none ∧
    (P0.cleanup m stopR2 disableR pkillR2 mvR).raised = none ∧
    (∀ e, m.isWindows = true → stopR = .error e →
      Ev.warn (lit "SSH cleanup failed: " ++ e) ∈ (cleanup m stopR pkillR).events) ∧
    (∀ e, m.isWindows = false → pkillR = .error e →
      Ev.warn (lit "Could not kill SSH processes: " ++ e) ∈ (cleanup m stopR pkillR).events) ∧
    (∀ e, m.isWindows = false → m.isLinux = true → mvR = .error e →
      Ev.warn (lit "Could not restore original SSH config: " ++ e) ∈
        (P0.cleanup m stopR2 disableR pkillR2 mvR).events) := by
  refine ⟨?_, ?_, ?_, ?_, ?_⟩
  · unfold cleanup
    by_cases hw : m.isWindows
    · rw [if_pos hw]
      cases stopR <;> rfl
    · rw [if_neg hw]
      cases pkillR <;> rfl
  · unfold P0.cleanup
    by_cases hw : m.isWindows
    · rw [if_pos hw]
      cases stopR2 with
      | error e => rfl
      | ok u => cases disableR <;> rfl
    · rw [if_neg hw]
  · intro e hw he
    subst he
    unfold cleanup
    rw [if_pos hw]
    simp
  · intro e hw he
    subst he
    unfold cleanup
    rw [if_neg (by simp [hw])]
    simp
  · intro e hw hl he
    subst he
    unfold P0.cleanup
    rw [if_neg (by simp [hw])]
    cases pkillR2 <;> simp [hl]

/-- C8 (witness): a Linux teardown in both revisions with a failing process
kill and a failing restore. -/
theorem c8_witness :
    (cleanup exLinux (.ok ()) (.error (lit "boom"))).raised = none ∧
    Ev.warn (lit "Could not kill SSH processes: " ++ lit "boom") ∈
      (cleanup exLinux (.ok ()) (.error (lit "boom"))).events ∧
    (P0.cleanup exLinux (.ok ()) (.ok ()) (.ok ()) (.error (lit "oops"))).raised = none ∧
    Ev.warn (lit "Could not restore original SSH config: " ++ lit "oops") ∈
      (P0.cleanup exLinux (.ok ()) (.ok ()) (.ok ()) (.error (lit "oops"))).events := by
  have h := c8_cleanup_never_raises exLinux (.ok ()) (.error (lit "boom")) (.ok ()) (.ok ())
    (.ok ()) (.error (lit "oops"))
  exact ⟨h.1, h.2.2.2.1 (lit "boom") (by decide) rfl, h.2.1,
    h.2.2.2.2 (lit "oops") (by decide) (by decide) rfl⟩

/-- C9: for non-empty literal multiline input, literal key resolution is
exactly the split on line breaks with blank and whitespace-only lines
removed: an order-preserving sublist of the split that contains precisely
its lines with non-empty trim. -/
theorem c9_literal_keys (publicKeys : List Char) (hne : publicKeys ≠ []) :
    literalKeys publicKeys = (jsSplit publicKeys).filter (fun k => !(jsTrim k).isEmpty) ∧
    (literalKeys publicKeys).Sublist (jsSplit publicKeys) ∧
    (∀ k ∈ literalKeys publicKeys, jsTrim k ≠ []) ∧
    (∀ k ∈ jsSplit publicKeys, jsTrim k ≠ [] → k ∈ literalKeys publicKeys) := by
  have hdef : literalKeys publicKeys =
      (jsSplit publicKeys).filter (fun k => !(jsTrim k).isEmpty) := by
    simp [literalKeys, hne]
  refine ⟨hdef, ?_, ?_, ?_⟩
  · rw [hdef]
    exact List.filter_sublist _
  · intro k hk
    rw [hdef] at hk
    have := (List.mem_filter.mp hk).2
    simp at this
    exact this
  · intro k hk hne2
    rw [hdef]
    exact List.mem_filter.mpr ⟨hk, by simp [hne2]⟩

/-- C9 (witness): a concrete three-line input with one blank line. -/
theorem c9_witness :
    literalKeys (lit "k1\n \nk2") =
      (jsSplit (lit "k1\n \nk2")).filter (fun k => !(jsTrim k).isEmpty) ∧
    (literalKeys (lit "k1\n \nk2")).Sublist (jsSplit (lit "k1\n \nk2")) := by
  have h := c9_literal_keys (lit "k1\n \nk2") (by decide)
  exact ⟨h.1, h.2.1⟩

/-- C10: on Windows the authorized-key set is written to the administrators
authorized-keys file, while the rendered windows configuration's primary
AuthorizedKeysFile directives name the plain ProgramData authorized_keys
file and a relative per-user path — neither of them the written file — and
only the Match Group administrators block names the written file. -/
theorem c10_windows_key_paths (m : Manager) (allKeys : List (List Char))
    (hwin : m.isWindows = true) (hp : '\n' ∉ m.sshPort) (hu : '\n' ∉ m.sshUser) :
    getAuthorizedKeysPath m = lit "C:\\ProgramData\\ssh\\administrators_authorized_keys" ∧
    authorizedKeysWrite m allKeys =
      .write (lit "C:\\ProgramData\\ssh\\administrators_authorized_keys")
        (nlJoin allKeys ++ ['\n']) (some 0o600) ∧
    lit "AuthorizedKeysFile \"C:\\ProgramData\\ssh\\authorized_keys\"" ∈
      jsSplit (generateSSHDConfig m (lit "windows")) ∧
    lit "AuthorizedKeysFile .ssh/authorized_keys" ∈
      jsSplit (generateSSHDConfig m (lit "windows")) ∧
    lit "Match Group administrators" ∈ jsSplit (generateSSHDConfig m (lit "windows")) ∧
    lit "    AuthorizedKeysFile __PROGRAMDATA__/ssh/administrators_authorized_keys" ∈
      jsSplit (generateSSHDConfig m (lit "windows")) ∧
    lit "C:\\ProgramData\\ssh\\administrators_authorized_keys" ≠
      lit "C:\\ProgramData\\ssh\\authorized_keys" := by
  have hak : getAuthorizedKeysPath m =
      lit "C:\\ProgramData\\ssh\\administrators_authorized_keys" := by
    unfold getAuthorizedKeysPath
    rw [if_pos hwin]
  have hlines := render_win_lines m hp hu
  refine ⟨hak, ?_, ?_, ?_, ?_, ?_, by decide⟩
  · unfold authorizedKeysWrite
    rw [hak]
  · rw [hlines]
    simp [winMid, winInit]
  · rw [hlines]
    simp [winMid, winInit]
  · rw [hlines]
    simp [winMid, winTail]
  · rw [hlines]
    simp [winMid, winTail]

/-- C10 (witness): the Windows key-path facts on a standard Windows manager. -/
theorem c10_witness :
    getAuthorizedKeysPath exWin =
      lit "C:\\ProgramData\\ssh\\administrators_authorized_keys" ∧
    lit "Match Group administrators" ∈ jsSplit (generateSSHDConfig exWin (lit "windows")) := by
  have h := c10_windows_key_paths exWin [lit "key1"] (by decide) (by decide) (by decide)
  exact ⟨h.1, h.2.2.2.2.1⟩

end SetupSSHD
